import Mathlib

/-!
Shallow embedding of the dress-site e-commerce application
(src/tempCodeRunnerFile.py): a Flask app with three SQLAlchemy tables
(User, Item, Cart) and synchronous CRUD route handlers.

The database is modelled as explicit state (`DB`): each table is a list of
rows in insertion order, together with the next auto-increment primary key
for rows the handlers insert.  ORM calls translate as:
  `T.query.get(pk)` / `get_or_404(pk)`  -> `List.find?` on the id field
  `T.query.filter_by(...)`              -> `List.filter` / `List.find?`
  `query.delete()` / `session.delete`   -> `List.filter` removing rows
  mutating a fetched row + `commit()`   -> `List.map` rewriting the row
                                           with that primary key
Handlers that can abort (404, validation flash, uncaught exception) return
`Except Err DB`; an error result means the handler aborted without
committing, so the database is unchanged.  Python floats are modelled as
rationals (ℚ); the prices and arithmetic the app uses are exact in both.
-/

/-- Error outcomes a route handler can produce: `notFound` is an HTTP 404
abort (`get_or_404`), `validation` is a flashed error followed by a
redirect with no commit, `pyError` is an uncaught Python exception
(e.g. `ValueError` from `float()`), which aborts the request. -/
inductive Err where
  | notFound
  | validation
  | pyError
deriving DecidableEq

/-- Row of the `user` table (class `User`, lines 55-66).  The password hash
and creation time play no role in any claim and are omitted. -/
structure User where
  id : Nat
  username : String
  is_admin : Bool
deriving DecidableEq

/-- Row of the `item` table (class `Item`, lines 69-74). `price` is a
Python float, modelled as ℚ. -/
structure Item where
  id : Nat
  name : String
  price : ℚ
  image_url : String
deriving DecidableEq

/-- Row of the `cart` table (class `Cart`, lines 77-81): one per-user,
per-item quantity row. -/
structure Cart where
  id : Nat
  user_id : Nat
  item_id : Nat
  quantity : Int
deriving DecidableEq

/-- The relational state: the three tables plus the next auto-increment
primary keys used when handlers insert rows. -/
structure DB where
  users : List User
  items : List Item
  carts : List Cart
  nextUserId : Nat
  nextItemId : Nat
  nextCartId : Nat
deriving DecidableEq

/-- Model of Python `str.lower()` restricted to ASCII letters, which is all
the app compares (`uname.lower() == 'admin'`, `filename.lower()`). -/
def pyLower (s : String) : String :=
  ⟨s.data.map Char.toLower⟩

/-- ASCII whitespace recognised by Python `str.strip()` (the fragment the
claims exercise). -/
def isSpace (c : Char) : Bool :=
  c == ' ' || c == '\t' || c == '\n' || c == '\r'

/-- Model of Python `str.strip()`: removes leading and trailing
whitespace. -/
def pyStrip (s : String) : String :=
  ⟨((s.data.dropWhile isSpace).reverse.dropWhile isSpace).reverse⟩

/-- Split a character list at every occurrence of `c` (the separators are
dropped), the list-level counterpart of Python `str.split(c)`; splitting
on the single separator of interest, the last chunk is what Python
`s.rsplit(c, 1)[-1]` returns. -/
def splitOnChar (c : Char) : List Char → List (List Char)
  | [] => [[]]
  | x :: xs =>
    let r := splitOnChar c xs
    if x == c then [] :: r
    else
      match r with
      | [] => [[x]]
      | y :: ys => (x :: y) :: ys

/-- Handler `signup`, POST branch (lines 116-133).  Empty username or
password flashes a validation error; an existing row with the same
(case-sensitive) username flashes a validation error; otherwise a user is
inserted whose `is_admin` is `uname.lower() == 'admin'`. -/
def signup (unameRaw pwdRaw : String) (db : DB) : Except Err DB :=
  let uname := pyStrip unameRaw
  let pwd := pyStrip pwdRaw
  if uname = "" || pwd = "" then
    .error .validation
  else if (db.users.find? (fun u => u.username == uname)).isSome then
    .error .validation
  else
    .ok { db with
      users := db.users ++ [⟨db.nextUserId, uname, pyLower uname == "admin"⟩],
      nextUserId := db.nextUserId + 1 }

/-- Handler `add_to_cart` (lines 214-227): `get_or_404` the item, then
either increment the existing (user, item) row's quantity or insert a
fresh row with quantity 1. -/
def add_to_cart (uid : Nat) (item_id : Nat) (db : DB) : Except Err DB :=
  match db.items.find? (fun it => it.id == item_id) with
  | none => .error .notFound
  | some item =>
    match db.carts.find? (fun c => c.user_id == uid && c.item_id == item.id) with
    | some row =>
      .ok { db with
        carts := db.carts.map (fun c =>
          if c.id == row.id then { c with quantity := c.quantity + 1 } else c) }
    | none =>
      .ok { db with
        carts := db.carts ++ [⟨db.nextCartId, uid, item.id, 1⟩],
        nextCartId := db.nextCartId + 1 }

/-- Handler `update_cart` (lines 229-240): `get_or_404` the cart row by
primary key; a quantity ≤ 0 deletes the row, a positive quantity
overwrites it.  The form field has already been converted by `int()`; the
session user is never consulted by the handler body. -/
def update_cart (cart_id : Nat) (q : Int) (db : DB) : Except Err DB :=
  match db.carts.find? (fun c => c.id == cart_id) with
  | none => .error .notFound
  | some _ =>
    if q ≤ 0 then
      .ok { db with carts := db.carts.filter (fun c => !(c.id == cart_id)) }
    else
      .ok { db with carts := db.carts.map (fun c =>
        if c.id == cart_id then { c with quantity := q } else c) }

/-- Handler `admin_delete_item` (lines 179-187): `get_or_404` the item,
delete it, and delete every cart row referencing it. -/
def admin_delete_item (item_id : Nat) (db : DB) : Except Err DB :=
  match db.items.find? (fun it => it.id == item_id) with
  | none => .error .notFound
  | some _ =>
    .ok { db with
      items := db.items.filter (fun it => !(it.id == item_id)),
      carts := db.carts.filter (fun c => !(c.item_id == item_id)) }

/-- One rendered cart line (the dict built at lines 203-211). -/
structure LineItem where
  cart_id : Nat
  item_id : Nat
  name : String
  price : ℚ
  quantity : Int
  image_url : String
  line_total : ℚ
deriving DecidableEq

/-- Handler `cart` view loop (lines 190-212): iterate the user's cart rows
in order, skip rows whose item no longer exists, and accumulate line
items and the running total `price * max(1, quantity)`. -/
def cartView (uid : Nat) (db : DB) : List LineItem × ℚ :=
  (db.carts.filter (fun e => e.user_id == uid)).foldl
    (fun acc e =>
      match db.items.find? (fun it => it.id == e.item_id) with
      | none => acc
      | some item =>
        let lt : ℚ := item.price * ((max 1 e.quantity : Int) : ℚ)
        (acc.1 ++ [⟨e.id, item.id, item.name, item.price, e.quantity,
                    item.image_url, lt⟩], acc.2 + lt))
    ([], 0)

/-- Handler `cart` as a route: it renders `cartView` and commits nothing,
so the database comes back unchanged. -/
def cart_route (uid : Nat) (db : DB) : DB × (List LineItem × ℚ) :=
  (db, cartView uid db)

/-- Handler `success` (lines 283-288): delete every cart row of the
session user and commit.  The handler body has no other precondition. -/
def success (uid : Nat) (db : DB) : DB :=
  { db with carts := db.carts.filter (fun c => !(c.user_id == uid)) }

/-- Value of an unsigned digit string. -/
def digitsVal (l : List Char) : Nat :=
  l.foldl (fun a c => a * 10 + (c.toNat - 48)) 0

/-- Model of Python `float(s)` restricted to plain decimal literals: an
optional sign, then digits with at most one decimal point and digits on at
least one side of it.  Any other string raises `ValueError`, modelled as
`none`.  (Exponents, `inf`/`nan`, underscores and surrounding whitespace
are outside the fragment the claims exercise.) -/
def pyFloat (s : String) : Option ℚ :=
  let (sgn, body) :=
    match s.data with
    | '-' :: rest => ((-1 : ℚ), rest)
    | '+' :: rest => ((1 : ℚ), rest)
    | l => ((1 : ℚ), l)
  match splitOnChar '.' body with
  | [intPart] =>
    if !intPart.isEmpty && intPart.all Char.isDigit then
      some (sgn * (digitsVal intPart : ℚ))
    else none
  | [intPart, fracPart] =>
    if (!intPart.isEmpty || !fracPart.isEmpty)
        && intPart.all Char.isDigit
        && fracPart.all Char.isDigit then
      some (sgn * ((digitsVal intPart : ℚ)
        + (digitsVal fracPart : ℚ) / ((10 : ℚ) ^ fracPart.length)))
    else none
  | _ => none

/-- Handler `admin`, POST branch (lines 161-177).  The handler first
evaluates `price = float(request.form.get('price', '0') or 0)`: a missing
field defaults to the string `'0'`, an empty string is falsy so `float(0)`
gives 0.0, and any other string goes through `float()`, which raises
`ValueError` on an unparseable string and aborts the request before the
name check.  Only then is an empty (stripped) name rejected with a
validation flash; otherwise the item row is inserted. -/
def admin_create_item (nameRaw : String) (priceField : Option String)
    (imageRaw : String) (db : DB) : Except Err DB :=
  let name := pyStrip nameRaw
  let priceStr := priceField.getD "0"
  let priceOpt := if priceStr = "" then some (0 : ℚ) else pyFloat priceStr
  match priceOpt with
  | none => .error .pyError
  | some price =>
    if name = "" then
      .error .validation
    else
      .ok { db with
        items := db.items ++ [⟨db.nextItemId, name, price, pyStrip imageRaw⟩],
        nextItemId := db.nextItemId + 1 }

/-- The lowercased text after the last dot of a filename, which is what
`filename.lower().rsplit('.', 1)[-1]` computes. -/
def lastExt (f : String) : String :=
  ⟨(splitOnChar '.' (pyLower f).data).getLastD (pyLower f).data⟩

/-- MIME inference of handler `send_screenshot` (lines 270-273), applied
to the stored (sanitized) filename: if the filename contains a dot, the
extension is the lowercased text after the last dot, else the literal
`png`; `jpg`/`jpeg` map to `image/jpeg`, every other extension `e` to
the string `image/` followed by `e`. -/
def mimeOf (filename : String) : String :=
  let ext : String :=
    if filename.data.any (fun c => c == '.') then lastExt filename
    else "png"
  "image/" ++ (if ext = "jpg" || ext = "jpeg" then "jpeg" else ext)

/-- Kind of flash message a handler emits. -/
inductive Flash where
  | okMsg
  | warnMsg
  | errorMsg
deriving DecidableEq

/-- Handler `send_screenshot`, POST branch (lines 251-281).  `fileOpt` is
the uploaded file's name (`none` when no file part was sent); `relayOk`
says whether `mail.send` succeeds.  A missing or empty filename flashes an
error and redirects back (second component `false` = did not proceed).
Otherwise the file is saved and the mail relay is attempted inside
`try/except`: success flashes ok, failure is caught and flashed as a
warning, and either way the handler redirects to `success` (second
component `true`).  The handler writes nothing to the database. -/
def send_screenshot (relayOk : Bool) (fileOpt : Option String)
    (db : DB) : DB × Flash × Bool :=
  match fileOpt with
  | none => (db, .errorMsg, false)
  | some f =>
    if f = "" then (db, .errorMsg, false)
    else (db, if relayOk then .okMsg else .warnMsg, true)

/-- The cart line the view builds for entry `e` joined with its item. -/
def mkLine (e : Cart) (item : Item) : LineItem :=
  ⟨e.id, item.id, item.name, item.price, e.quantity, item.image_url,
   item.price * ((max 1 e.quantity : Int) : ℚ)⟩

/-- Closed form of the list of lines `cartView` renders: the user's cart
rows in order, each joined against the item table, rows whose item is gone
dropped. -/
def cartLines (uid : Nat) (db : DB) : List LineItem :=
  (db.carts.filter (fun e => e.user_id == uid)).filterMap
    (fun e => (db.items.find? (fun it => it.id == e.item_id)).map (mkLine e))

/-- A sample database used to instantiate the theorems: the seeded admin
and demo user, two catalog items, and three cart rows (user 2 holds item 1
twice and item 2 once; user 1 holds item 1 once). -/
def exDB : DB :=
  { users := [⟨1, "admin", true⟩, ⟨2, "user", false⟩],
    items := [⟨1, "Red Summer Dress", 1299, "u1"⟩,
              ⟨2, "Classic Black Gown", 2499, "u2"⟩],
    carts := [⟨1, 2, 1, 2⟩, ⟨2, 2, 2, 1⟩, ⟨3, 1, 1, 1⟩],
    nextUserId := 3, nextItemId := 3, nextCartId := 4 }

/-- Generalised accumulator form of the `cart` view loop. -/
lemma cartView_go (db : DB) (l : List Cart) (acc : List LineItem × ℚ) :
    l.foldl
      (fun acc e =>
        match db.items.find? (fun it => it.id == e.item_id) with
        | none => acc
        | some item =>
          let lt : ℚ := item.price * ((max 1 e.quantity : Int) : ℚ)
          (acc.1 ++ [⟨e.id, item.id, item.name, item.price, e.quantity,
                      item.image_url, lt⟩], acc.2 + lt))
      acc
    = (acc.1 ++ l.filterMap
        (fun e => (db.items.find? (fun it => it.id == e.item_id)).map (mkLine e)),
       acc.2 + ((l.filterMap
        (fun e => (db.items.find? (fun it => it.id == e.item_id)).map (mkLine e))).map
          LineItem.line_total).sum) := by
  induction l generalizing acc with
  | nil => simp
  | cons e l ih =>
    simp only [List.foldl_cons, List.filterMap_cons]
    cases h : db.items.find? (fun it => it.id == e.item_id) with
    | none => simpa [h] using ih acc
    | some item =>
      simp only [h]
      rw [ih]
      simp [mkLine, add_assoc]

/-- The `cart` view equals its closed form: the rendered lines are
`cartLines` and the total is the sum of their line totals. -/
lemma cartView_eq (uid : Nat) (db : DB) :
    cartView uid db
      = (cartLines uid db, ((cartLines uid db).map LineItem.line_total).sum) := by
  unfold cartView cartLines
  rw [cartView_go]
  simp

/-- C3: for every user, `viewCart` leaves the database untouched, renders
exactly the closed-form line list (cart rows whose item was deleted are
silently skipped, and in particular never removed from the table), every
rendered line carries `line_total = price * max(1, quantity)` and points
at an item that still exists with that price, and the reported total is
the sum of the rendered lines' totals. -/
theorem cart_view_spec (uid : Nat) (db : DB) :
    (cart_route uid db).1 = db
    ∧ (cart_route uid db).2.1 = cartLines uid db
    ∧ (cart_route uid db).2.2
        = (((cart_route uid db).2.1).map LineItem.line_total).sum
    ∧ (∀ li ∈ (cart_route uid db).2.1,
        li.line_total = li.price * ((max 1 li.quantity : Int) : ℚ)
        ∧ ∃ it ∈ db.items, it.id = li.item_id ∧ it.price = li.price) := by
  refine ⟨rfl, ?_, ?_, ?_⟩
  · show (cartView uid db).1 = cartLines uid db
    rw [cartView_eq]
  · show (cartView uid db).2 = ((cartView uid db).1.map LineItem.line_total).sum
    rw [cartView_eq]
  · show ∀ li ∈ (cartView uid db).1, _
    rw [cartView_eq]
    intro li hli
    simp only [cartLines, List.mem_filterMap, List.mem_filter] at hli
    obtain ⟨e, ⟨he, hu⟩, hfind⟩ := hli
    cases h : db.items.find? (fun it => it.id == e.item_id) with
    | none => rw [h] at hfind; cases hfind
    | some item =>
      rw [h] at hfind
      have hm : item ∈ db.items := List.mem_of_find?_eq_some h
      cases hfind
      exact ⟨rfl, item, hm, rfl, rfl⟩

/-- C3 witness: the closed-form facts instantiated on the sample database
for user 2, including the first rendered line (item 1 twice at 1299). -/
theorem cart_view_spec_witness :
    ((cart_route 2 exDB).1 = exDB)
    ∧ ((⟨1, 1, "Red Summer Dress", 1299, 2, "u1",
        (1299 : ℚ) * ((max 1 (2 : Int) : Int) : ℚ)⟩ : LineItem).line_total
          = (1299 : ℚ) * ((max 1 (2 : Int) : Int) : ℚ)
        ∧ ∃ it ∈ exDB.items, it.id = 1 ∧ it.price = 1299) := by
  refine ⟨(cart_view_spec 2 exDB).1, ?_⟩
  have h := (cart_view_spec 2 exDB).2.2.2
    ⟨1, 1, "Red Summer Dress", 1299, 2, "u1",
      (1299 : ℚ) * ((max 1 (2 : Int) : Int) : ℚ)⟩
    (List.mem_cons_self _ _)
  exact h

/-- After `success`, no cart row of the user remains. -/
lemma success_filter_self (uid : Nat) (db : DB) :
    (success uid db).carts.filter (fun c => c.user_id == uid) = [] := by
  simp [success, List.filter_filter]

/-- A user with no cart rows sees an empty cart with total 0. -/
lemma cartView_of_no_rows (uid : Nat) (db : DB)
    (h : db.carts.filter (fun c => c.user_id == uid) = []) :
    cartView uid db = ([], 0) := by
  unfold cartView
  rw [h]
  rfl

/-- C10: visiting the success page deletes all of the session user's cart
rows with no precondition at all — the theorem quantifies over every
database state, payment-acknowledged or not — leaving users, items and
other users' cart rows in place, after which the user's cart view is
empty with total 0. -/
theorem success_clears_unconditionally (uid : Nat) (db : DB) :
    (success uid db).users = db.users
    ∧ (success uid db).items = db.items
    ∧ (success uid db).carts.filter (fun c => c.user_id == uid) = []
    ∧ (∀ c ∈ db.carts, c.user_id ≠ uid → c ∈ (success uid db).carts)
    ∧ cartView uid (success uid db) = ([], 0) := by
  refine ⟨rfl, rfl, success_filter_self uid db, ?_, ?_⟩
  · intro c hc hne
    simp [success, hc, hne]
  · exact cartView_of_no_rows _ _ (success_filter_self uid db)

/-- C10 witness: on the sample database, user 2's rows are gone, user 1's
row survives, and user 2's cart view is empty. -/
theorem success_clears_witness :
    (success 2 exDB).carts.filter (fun c => c.user_id == 2) = []
    ∧ (⟨3, 1, 1, 1⟩ : Cart) ∈ (success 2 exDB).carts
    ∧ cartView 2 (success 2 exDB) = ([], 0) :=
  ⟨(success_clears_unconditionally 2 exDB).2.2.1,
   (success_clears_unconditionally 2 exDB).2.2.2.1 ⟨3, 1, 1, 1⟩ (by decide) (by decide),
   (success_clears_unconditionally 2 exDB).2.2.2.2⟩

/-- C2: with a non-empty uploaded filename, the screenshot step redirects
to completion whether the relay succeeded or failed (a failure is caught
and flashed as a warning), it writes nothing to the database, and the
completion step then clears the user's cart, so the post-checkout cart
view renders no lines and total 0 — regardless of the relay outcome. -/
theorem checkout_clears_cart (uid : Nat) (db : DB) (relayOk : Bool)
    (f : String) (hf : ¬f = "") :
    (send_screenshot relayOk (some f) db).2.2 = true
    ∧ (send_screenshot relayOk (some f) db).1 = db
    ∧ (relayOk = false → (send_screenshot relayOk (some f) db).2.1 = .warnMsg)
    ∧ (relayOk = true → (send_screenshot relayOk (some f) db).2.1 = .okMsg)
    ∧ cartView uid (success uid (send_screenshot relayOk (some f) db).1)
        = ([], 0) := by
  refine ⟨?_, ?_, ?_, ?_, ?_⟩
  · simp [send_screenshot, hf]
  · simp [send_screenshot, hf]
  · intro h; simp [send_screenshot, hf, h]
  · intro h; simp [send_screenshot, hf, h]
  · have h1 : (send_screenshot relayOk (some f) db).1 = db := by
      simp [send_screenshot, hf]
    rw [h1]
    exact cartView_of_no_rows _ _ (success_filter_self uid db)

/-- C2 witness: a failed relay on the sample database still proceeds,
flashes a warning, and user 2's cart is empty after completion. -/
theorem checkout_clears_cart_witness :
    (send_screenshot false (some "shot.png") exDB).2.2 = true
    ∧ (send_screenshot false (some "shot.png") exDB).2.1 = .warnMsg
    ∧ cartView 2 (success 2 (send_screenshot false (some "shot.png") exDB).1)
        = ([], 0) :=
  ⟨(checkout_clears_cart 2 exDB false "shot.png" (by decide)).1,
   (checkout_clears_cart 2 exDB false "shot.png" (by decide)).2.2.1 rfl,
   (checkout_clears_cart 2 exDB false "shot.png" (by decide)).2.2.2.2⟩

/-- Bumping one row's quantity never changes which (user, item) pair a
row belongs to. -/
lemma pair_of_requantify (uid iid nid : Nat) (g : Cart → Int) (c : Cart) :
    ((if c.id == nid then { c with quantity := g c } else c).user_id == uid
      && (if c.id == nid then { c with quantity := g c } else c).item_id == iid)
    = (c.user_id == uid && c.item_id == iid) := by
  by_cases hc : (c.id == nid) = true <;> simp [hc]

/-- C1: `add_to_cart` 404s when the item id is absent from the catalog
(aborting before any write); when the item exists it increments the
quantity of the existing (user, item) row if there is one, and otherwise
inserts a fresh row with quantity 1 — so from a state with no row for the
pair, two consecutive calls leave exactly one row for the pair and its
quantity is 2. -/
theorem add_to_cart_spec (uid iid : Nat) (db : DB) :
    ((∀ it ∈ db.items, it.id ≠ iid) → add_to_cart uid iid db = .error .notFound)
    ∧ (∀ row, db.carts.find? (fun c => c.user_id == uid && c.item_id == iid) = some row →
        (∃ it ∈ db.items, it.id = iid) →
        add_to_cart uid iid db = .ok { db with carts := db.carts.map (fun c =>
          if c.id == row.id then { c with quantity := c.quantity + 1 } else c) })
    ∧ ((∃ it ∈ db.items, it.id = iid) →
        db.carts.filter (fun c => c.user_id == uid && c.item_id == iid) = [] →
        add_to_cart uid iid db
          = .ok { db with
                  carts := db.carts ++ [⟨db.nextCartId, uid, iid, 1⟩],
                  nextCartId := db.nextCartId + 1 }
        ∧ ∃ db2,
            add_to_cart uid iid
              { db with
                carts := db.carts ++ [⟨db.nextCartId, uid, iid, 1⟩],
                nextCartId := db.nextCartId + 1 } = .ok db2
            ∧ db2.carts.filter (fun c => c.user_id == uid && c.item_id == iid)
                = [⟨db.nextCartId, uid, iid, 2⟩]) := by
  refine ⟨?_, ?_, ?_⟩
  · intro h
    have hnone : db.items.find? (fun it => it.id == iid) = none :=
      List.find?_eq_none.mpr (by intro x hx; simpa using h x hx)
    simp [add_to_cart, hnone]
  · intro row hrow hex
    obtain ⟨item, hitem⟩ : ∃ item, db.items.find? (fun it => it.id == iid) = some item := by
      have : (db.items.find? (fun it => it.id == iid)).isSome := by
        rw [List.find?_isSome]
        obtain ⟨it, hmem, hid⟩ := hex
        exact ⟨it, hmem, by simpa using hid⟩
      exact Option.isSome_iff_exists.mp this
    have hid : item.id = iid := by simpa using List.find?_some hitem
    simp only [add_to_cart, hitem, hid, hrow]
  · intro hex hfilter
    obtain ⟨item, hitem⟩ : ∃ item, db.items.find? (fun it => it.id == iid) = some item := by
      have : (db.items.find? (fun it => it.id == iid)).isSome := by
        rw [List.find?_isSome]
        obtain ⟨it, hmem, hid⟩ := hex
        exact ⟨it, hmem, by simpa using hid⟩
      exact Option.isSome_iff_exists.mp this
    have hid : item.id = iid := by simpa using List.find?_some hitem
    have hnopair : db.carts.find? (fun c => c.user_id == uid && c.item_id == iid) = none :=
      List.find?_eq_none.mpr (List.filter_eq_nil_iff.mp hfilter)
    constructor
    · simp only [add_to_cart, hitem, hid, hnopair]
    · have hfind2 :
        (db.carts ++ [(⟨db.nextCartId, uid, iid, 1⟩ : Cart)]).find?
            (fun c => c.user_id == uid && c.item_id == iid)
          = some ⟨db.nextCartId, uid, iid, 1⟩ := by
        rw [List.find?_append, hnopair]
        simp
      refine ⟨{ db with
          carts := (db.carts ++ [(⟨db.nextCartId, uid, iid, 1⟩ : Cart)]).map
            (fun c =>
              if c.id == db.nextCartId then { c with quantity := c.quantity + 1 }
              else c),
          nextCartId := db.nextCartId + 1 }, ?_, ?_⟩
      · simp only [add_to_cart, hitem, hid]
        rw [hfind2]
      · show ((db.carts ++ [(⟨db.nextCartId, uid, iid, 1⟩ : Cart)]).map (fun c =>
            if c.id == db.nextCartId then { c with quantity := c.quantity + 1 } else c)).filter
              (fun c => c.user_id == uid && c.item_id == iid)
            = [⟨db.nextCartId, uid, iid, 2⟩]
        rw [List.filter_map]
        rw [List.filter_congr (by
          intro c hc
          exact pair_of_requantify uid iid db.nextCartId (fun c => c.quantity + 1) c)]
        rw [List.filter_append, hfilter]
        simp

/-- C1 witness: on the sample database, adding absent item 99 404s; user
2 adding item 1 again bumps the existing row; and user 1 adding item 2
twice from scratch leaves exactly one (1, 2) row with quantity 2. -/
theorem add_to_cart_spec_witness :
    add_to_cart 2 99 exDB = .error .notFound
    ∧ add_to_cart 2 1 exDB = .ok { exDB with carts := exDB.carts.map (fun c =>
        if c.id == (1 : Nat) then { c with quantity := c.quantity + 1 } else c) }
    ∧ (add_to_cart 1 2 exDB
        = .ok { exDB with
                carts := exDB.carts ++ [⟨exDB.nextCartId, 1, 2, 1⟩],
                nextCartId := exDB.nextCartId + 1 }
      ∧ ∃ db2,
          add_to_cart 1 2
            { exDB with
              carts := exDB.carts ++ [⟨exDB.nextCartId, 1, 2, 1⟩],
              nextCartId := exDB.nextCartId + 1 } = .ok db2
          ∧ db2.carts.filter (fun c => c.user_id == 1 && c.item_id == 2)
              = [⟨exDB.nextCartId, 1, 2, 2⟩]) :=
  ⟨(add_to_cart_spec 2 99 exDB).1 (by decide),
   (add_to_cart_spec 2 1 exDB).2.1 ⟨1, 2, 1, 2⟩ (by decide) (by decide),
   (add_to_cart_spec 1 2 exDB).2.2 (by decide) (by decide)⟩

/-- A list containing some element satisfying `p` yields a `find?` hit. -/
lemma find?_eq_some_of_exists {α : Type} (p : α → Bool) (l : List α)
    (h : ∃ x ∈ l, p x = true) : ∃ y, l.find? p = some y := by
  obtain ⟨x, hx, hpx⟩ := h
  exact Option.isSome_iff_exists.mp (List.find?_isSome.mpr ⟨x, hx, hpx⟩)

/-- C4: `setQuantity` 404s when no cart row carries the requested id;
when one does, a quantity ≤ 0 deletes the row and a positive quantity
overwrites it; and after setting quantity 0, no rendered cart line of any
user carries the deleted entry's id, while the reported total is still
exactly the sum of the rendered lines (so the deleted entry contributes
nothing to it). -/
theorem update_cart_spec (cid : Nat) (q : Int) (db : DB) :
    ((∀ c ∈ db.carts, c.id ≠ cid) → update_cart cid q db = .error .notFound)
    ∧ ((∃ c ∈ db.carts, c.id = cid) →
        (q ≤ 0 → update_cart cid q db
            = .ok { db with carts := db.carts.filter (fun c => !(c.id == cid)) })
        ∧ (0 < q → update_cart cid q db
            = .ok { db with carts := db.carts.map (fun c =>
                if c.id == cid then { c with quantity := q } else c) }))
    ∧ ((∃ c ∈ db.carts, c.id = cid) →
        update_cart cid 0 db
          = .ok { db with carts := db.carts.filter (fun c => !(c.id == cid)) }
        ∧ (∀ uid, ∀ li ∈ (cartView uid { db with
              carts := db.carts.filter (fun c => !(c.id == cid)) }).1,
            li.cart_id ≠ cid)
        ∧ (∀ uid, (cartView uid { db with
              carts := db.carts.filter (fun c => !(c.id == cid)) }).2
            = ((cartView uid { db with
              carts := db.carts.filter (fun c => !(c.id == cid)) }).1.map
                LineItem.line_total).sum)) := by
  have hfind : (∃ c ∈ db.carts, c.id = cid) →
      ∃ row, db.carts.find? (fun c => c.id == cid) = some row := by
    intro hex
    refine find?_eq_some_of_exists _ _ ?_
    obtain ⟨c, hc, hcid⟩ := hex
    exact ⟨c, hc, by simpa using hcid⟩
  refine ⟨?_, ?_, ?_⟩
  · intro h
    have hnone : db.carts.find? (fun c => c.id == cid) = none :=
      List.find?_eq_none.mpr (by intro x hx; simpa using h x hx)
    simp [update_cart, hnone]
  · intro hex
    obtain ⟨row, hrow⟩ := hfind hex
    constructor
    · intro hq
      simp only [update_cart, hrow]
      rw [if_pos hq]
    · intro hq
      simp only [update_cart, hrow]
      rw [if_neg (not_le.mpr hq)]
  · intro hex
    obtain ⟨row, hrow⟩ := hfind hex
    refine ⟨?_, ?_, ?_⟩
    · simp only [update_cart, hrow]
      rw [if_pos le_rfl]
    · intro uid li hli
      rw [cartView_eq] at hli
      simp only [cartLines, List.mem_filterMap, List.mem_filter] at hli
      obtain ⟨e, ⟨⟨_, heid0⟩, _⟩, hmap⟩ := hli
      have heid : e.id ≠ cid := by simpa using heid0
      cases hfe : List.find? (fun it => it.id == e.item_id)
          ({ db with carts := db.carts.filter (fun c => !(c.id == cid)) } : DB).items with
      | none => rw [hfe] at hmap; cases hmap
      | some item =>
        rw [hfe] at hmap
        cases hmap
        simpa [mkLine] using heid
    · intro uid
      rw [cartView_eq]

/-- C4 witness: on the sample database, id 99 404s; setting row 2 to 0
deletes it; setting row 2 to 5 overwrites it; and after deleting row 2,
user 2's rendered lines never mention id 2 and the total is their sum. -/
theorem update_cart_spec_witness :
    update_cart 99 1 exDB = .error .notFound
    ∧ update_cart 2 0 exDB
        = .ok { exDB with carts := exDB.carts.filter (fun c => !(c.id == (2 : Nat))) }
    ∧ update_cart 2 5 exDB
        = .ok { exDB with carts := exDB.carts.map (fun c =>
            if c.id == (2 : Nat) then { c with quantity := 5 } else c) }
    ∧ (∀ li ∈ (cartView 2 { exDB with
          carts := exDB.carts.filter (fun c => !(c.id == (2 : Nat))) }).1,
        li.cart_id ≠ 2) :=
  ⟨(update_cart_spec 99 1 exDB).1 (by decide),
   ((update_cart_spec 2 0 exDB).2.1 ⟨⟨2, 2, 2, 1⟩, by decide, rfl⟩).1 (by decide),
   ((update_cart_spec 2 5 exDB).2.1 ⟨⟨2, 2, 2, 1⟩, by decide, rfl⟩).2 (by decide),
   ((update_cart_spec 2 0 exDB).2.2 ⟨⟨2, 2, 2, 1⟩, by decide, rfl⟩).2.1 2⟩

/-- C9: the cart update handler never consults the session user — for any
logged-in user and any existing cart row, even one owned by a different
user, the update succeeds: a non-positive quantity removes every row with
that id and a positive quantity overwrites that row's quantity. -/
theorem update_cart_no_ownership (sessionUid : Nat) (q : Int) (db : DB)
    (e : Cart) (he : e ∈ db.carts) (_hown : e.user_id ≠ sessionUid) :
    ∃ db1, update_cart e.id q db = .ok db1
      ∧ (q ≤ 0 → ∀ c ∈ db1.carts, c.id ≠ e.id)
      ∧ (0 < q → ∀ c ∈ db1.carts, c.id = e.id → c.quantity = q) := by
  obtain ⟨row, hrow⟩ := find?_eq_some_of_exists (fun c => c.id == e.id) db.carts
    ⟨e, he, by simp⟩
  by_cases hq : q ≤ 0
  · refine ⟨{ db with carts := db.carts.filter (fun c => !(c.id == e.id)) },
      ?_, ?_, ?_⟩
    · simp only [update_cart, hrow]
      rw [if_pos hq]
    · intro _ c hc
      have := (List.mem_filter.mp hc).2
      simpa using this
    · intro hq2
      exact absurd hq (not_le.mpr hq2)
  · refine ⟨{ db with carts := db.carts.map (fun c =>
        if c.id == e.id then { c with quantity := q } else c) }, ?_, ?_, ?_⟩
    · simp only [update_cart, hrow]
      rw [if_neg hq]
    · intro hq2
      exact absurd hq2 hq
    · intro _ c hc hcid
      simp only [List.mem_map] at hc
      obtain ⟨c0, hc0, hmap⟩ := hc
      by_cases h0 : (c0.id == e.id) = true
      · rw [if_pos h0] at hmap
        rw [← hmap]
      · rw [if_neg h0] at hmap
        rw [← hmap] at hcid
        exact absurd (by simpa using hcid) (by simpa using h0)

/-- C9 witness: user 2 (the session user) can delete user 1's row 3, and
can set its quantity to 7. -/
theorem update_cart_no_ownership_witness :
    (∃ db1, update_cart 3 0 exDB = .ok db1 ∧ ∀ c ∈ db1.carts, c.id ≠ 3)
    ∧ (∃ db1, update_cart 3 7 exDB = .ok db1
        ∧ ∀ c ∈ db1.carts, c.id = 3 → c.quantity = 7) := by
  constructor
  · obtain ⟨db1, h1, h2, _⟩ :=
      update_cart_no_ownership 2 0 exDB ⟨3, 1, 1, 1⟩ (by decide) (by decide)
    exact ⟨db1, h1, h2 (by decide)⟩
  · obtain ⟨db1, h1, _, h3⟩ :=
      update_cart_no_ownership 2 7 exDB ⟨3, 1, 1, 1⟩ (by decide) (by decide)
    exact ⟨db1, h1, h3 (by decide)⟩

/-- C5: deleting a catalog item 404s when the id is absent; otherwise it
removes exactly that item and exactly the cart rows referencing it,
across all users — every other item and every cart row for another item
survives — and afterwards no user's rendered cart has a line for the
deleted item. -/
theorem admin_delete_item_spec (iid : Nat) (db : DB) :
    ((∀ it ∈ db.items, it.id ≠ iid) → admin_delete_item iid db = .error .notFound)
    ∧ ((∃ it ∈ db.items, it.id = iid) →
        admin_delete_item iid db
          = .ok { db with
                  items := db.items.filter (fun it => !(it.id == iid)),
                  carts := db.carts.filter (fun c => !(c.item_id == iid)) }
        ∧ (∀ it ∈ db.items, it.id ≠ iid →
            it ∈ db.items.filter (fun it => !(it.id == iid)))
        ∧ (∀ it ∈ db.items.filter (fun it => !(it.id == iid)),
            it ∈ db.items ∧ it.id ≠ iid)
        ∧ (∀ c ∈ db.carts, c.item_id ≠ iid →
            c ∈ db.carts.filter (fun c => !(c.item_id == iid)))
        ∧ (∀ c ∈ db.carts.filter (fun c => !(c.item_id == iid)),
            c ∈ db.carts ∧ c.item_id ≠ iid)
        ∧ (∀ uid, ∀ li ∈ (cartView uid { db with
              items := db.items.filter (fun it => !(it.id == iid)),
              carts := db.carts.filter (fun c => !(c.item_id == iid)) }).1,
            li.item_id ≠ iid)) := by
  refine ⟨?_, ?_⟩
  · intro h
    have hnone : db.items.find? (fun it => it.id == iid) = none :=
      List.find?_eq_none.mpr (by intro x hx; simpa using h x hx)
    simp [admin_delete_item, hnone]
  · intro hex
    obtain ⟨item, hitem⟩ := find?_eq_some_of_exists (fun it => it.id == iid) db.items
      (by obtain ⟨it, hmem, hid⟩ := hex; exact ⟨it, hmem, by simpa using hid⟩)
    refine ⟨?_, ?_, ?_, ?_, ?_, ?_⟩
    · simp only [admin_delete_item, hitem]
    · intro it hmem hne
      exact List.mem_filter.mpr ⟨hmem, by simpa using hne⟩
    · intro it hmem
      exact ⟨(List.mem_filter.mp hmem).1, by simpa using (List.mem_filter.mp hmem).2⟩
    · intro c hmem hne
      exact List.mem_filter.mpr ⟨hmem, by simpa using hne⟩
    · intro c hmem
      exact ⟨(List.mem_filter.mp hmem).1, by simpa using (List.mem_filter.mp hmem).2⟩
    · intro uid li hli
      rw [cartView_eq] at hli
      simp only [cartLines, List.mem_filterMap, List.mem_filter] at hli
      obtain ⟨e, _, hmap⟩ := hli
      cases hfe : List.find? (fun it => it.id == e.item_id)
          ({ db with
             items := db.items.filter (fun it => !(it.id == iid)),
             carts := db.carts.filter (fun c => !(c.item_id == iid)) } : DB).items with
      | none => rw [hfe] at hmap; cases hmap
      | some it2 =>
        rw [hfe] at hmap
        cases hmap
        have hmem : it2 ∈ db.items.filter (fun it => !(it.id == iid)) :=
          List.mem_of_find?_eq_some hfe
        have : it2.id ≠ iid := by simpa using (List.mem_filter.mp hmem).2
        simpa [mkLine] using this

/-- C5 witness: on the sample database, deleting absent item 99 404s;
deleting item 1 removes it and both cart rows referencing it, keeps item
2 and user 2's row for item 2, and neither user's cart view mentions
item 1 afterwards. -/
theorem admin_delete_item_spec_witness :
    admin_delete_item 99 exDB = .error .notFound
    ∧ admin_delete_item 1 exDB
        = .ok { exDB with
                items := exDB.items.filter (fun it => !(it.id == (1 : Nat))),
                carts := exDB.carts.filter (fun c => !(c.item_id == (1 : Nat))) }
    ∧ (⟨2, "Classic Black Gown", 2499, "u2"⟩ : Item)
        ∈ exDB.items.filter (fun it => !(it.id == (1 : Nat)))
    ∧ (⟨2, 2, 2, 1⟩ : Cart) ∈ exDB.carts.filter (fun c => !(c.item_id == (1 : Nat)))
    ∧ (∀ li ∈ (cartView 2 { exDB with
          items := exDB.items.filter (fun it => !(it.id == (1 : Nat))),
          carts := exDB.carts.filter (fun c => !(c.item_id == (1 : Nat))) }).1,
        li.item_id ≠ 1) :=
  ⟨(admin_delete_item_spec 99 exDB).1 (by decide),
   ((admin_delete_item_spec 1 exDB).2 ⟨⟨1, "Red Summer Dress", 1299, "u1"⟩, by decide, rfl⟩).1,
   ((admin_delete_item_spec 1 exDB).2 ⟨⟨1, "Red Summer Dress", 1299, "u1"⟩, by decide, rfl⟩).2.1
     ⟨2, "Classic Black Gown", 2499, "u2"⟩ (by decide) (by decide),
   ((admin_delete_item_spec 1 exDB).2 ⟨⟨1, "Red Summer Dress", 1299, "u1"⟩, by decide, rfl⟩).2.2.2.1
     ⟨2, 2, 2, 1⟩ (by decide) (by decide),
   ((admin_delete_item_spec 1 exDB).2 ⟨⟨1, "Red Summer Dress", 1299, "u1"⟩, by decide, rfl⟩).2.2.2.2.2 2⟩

/-- C6: signup rejects (with a validation flash and no insertion) any
username whose stripped form case-sensitively equals an existing user's
name; on success the single inserted user has `is_admin` true exactly
when the lowercased username is the string `admin`. -/
theorem signup_spec (unameRaw pwdRaw : String) (db : DB) :
    ((∃ u ∈ db.users, u.username = pyStrip unameRaw) →
      signup unameRaw pwdRaw db = .error .validation)
    ∧ (∀ db1, signup unameRaw pwdRaw db = .ok db1 →
        ∃ u, db1.users = db.users ++ [u]
          ∧ u.username = pyStrip unameRaw
          ∧ (u.is_admin = true ↔ pyLower (pyStrip unameRaw) = "admin")) := by
  constructor
  · intro hex
    obtain ⟨w, hw⟩ := find?_eq_some_of_exists
      (fun u => u.username == pyStrip unameRaw) db.users
      (by obtain ⟨u, hu, hname⟩ := hex; exact ⟨u, hu, by simpa using hname⟩)
    simp only [signup, hw]
    split
    · rfl
    · simp
  · intro db1 hok
    simp only [signup] at hok
    split at hok
    · exact Except.noConfusion hok
    · split at hok
      · exact Except.noConfusion hok
      · simp only [Except.ok.injEq] at hok
        subst hok
        exact ⟨⟨db.nextUserId, pyStrip unameRaw,
          pyLower (pyStrip unameRaw) == "admin"⟩, rfl, rfl, by simp⟩

/-- C6 witness: re-signing up the existing name `user` is rejected, and a
fresh signup as `Admin` inserts one user whose admin flag is true because
the lowercased name is `admin`. -/
theorem signup_spec_witness :
    signup "user" "x" exDB = .error .validation
    ∧ (∃ u, ({ exDB with
          users := exDB.users ++ [⟨3, "Admin", true⟩],
          nextUserId := 4 } : DB).users = exDB.users ++ [u]
        ∧ u.username = pyStrip "Admin"
        ∧ (u.is_admin = true ↔ pyLower (pyStrip "Admin") = "admin"))
    ∧ pyLower (pyStrip "Admin") = "admin"
    ∧ pyLower (pyStrip "alice") ≠ "admin" :=
  ⟨(signup_spec "user" "x" exDB).1 ⟨⟨2, "user", false⟩, by decide, rfl⟩,
   (signup_spec "Admin" "pw" exDB).2 _ rfl,
   by decide, by decide⟩

/-- C7 counterexample: with the non-empty unparseable price string `abc`,
`float('abc')` raises an uncaught ValueError, so the create-item request
aborts with no item created — it does not create the item with price 0
as claimed. -/
theorem admin_create_item_unparseable_cex :
    admin_create_item "shirt" (some "abc") "" exDB = .error .pyError
    ∧ ∀ db1, admin_create_item "shirt" (some "abc") "" exDB ≠ .ok db1 := by
  refine ⟨rfl, ?_⟩
  intro db1 h
  rw [show admin_create_item "shirt" (some "abc") "" exDB = .error .pyError
    from rfl] at h
  exact Except.noConfusion h

/-- C7 amended: the price field defaults to 0 only when it is absent or
the empty string; a non-empty price string that `float()` cannot parse
aborts the request with an uncaught ValueError before the name check, so
no item is created.  When the price evaluates, an empty stripped name is
rejected with a validation flash and no insertion, and otherwise exactly
one item row is inserted with the parsed price. -/
theorem admin_create_item_amended (nameRaw : String) (priceField : Option String)
    (imageRaw : String) (db : DB) :
    (priceField.getD "0" ≠ "" → pyFloat (priceField.getD "0") = none →
      admin_create_item nameRaw priceField imageRaw db = .error .pyError)
    ∧ (∀ p, (if priceField.getD "0" = "" then some (0 : ℚ)
          else pyFloat (priceField.getD "0")) = some p →
        (pyStrip nameRaw = "" →
          admin_create_item nameRaw priceField imageRaw db = .error .validation)
        ∧ (pyStrip nameRaw ≠ "" →
          admin_create_item nameRaw priceField imageRaw db
            = .ok { db with
                    items := db.items
                      ++ [⟨db.nextItemId, pyStrip nameRaw, p, pyStrip imageRaw⟩],
                    nextItemId := db.nextItemId + 1 }))
    ∧ ((priceField = none ∨ priceField = some "") → pyStrip nameRaw ≠ "" →
        ∃ db1, admin_create_item nameRaw priceField imageRaw db = .ok db1
          ∧ db1.items = db.items
              ++ [⟨db.nextItemId, pyStrip nameRaw, 0, pyStrip imageRaw⟩]) := by
  have hmain : ∀ p, (if priceField.getD "0" = "" then some (0 : ℚ)
        else pyFloat (priceField.getD "0")) = some p →
      (pyStrip nameRaw = "" →
        admin_create_item nameRaw priceField imageRaw db = .error .validation)
      ∧ (pyStrip nameRaw ≠ "" →
        admin_create_item nameRaw priceField imageRaw db
          = .ok { db with
                  items := db.items
                    ++ [⟨db.nextItemId, pyStrip nameRaw, p, pyStrip imageRaw⟩],
                  nextItemId := db.nextItemId + 1 }) := by
    intro p hp
    constructor
    · intro hname
      simp only [admin_create_item, hp]
      rw [if_pos hname]
    · intro hname
      simp only [admin_create_item, hp]
      rw [if_neg hname]
  refine ⟨?_, hmain, ?_⟩
  · intro hne hnone
    simp only [admin_create_item]
    rw [if_neg hne, hnone]
  · intro hdef hname
    rcases hdef with rfl | rfl
    · exact ⟨_, ((hmain 0)
        (by simp +decide [pyFloat, splitOnChar, digitsVal])).2 hname, rfl⟩
    · exact ⟨_, ((hmain 0)
        (by simp +decide [pyFloat, splitOnChar, digitsVal])).2 hname, rfl⟩

/-- C7 witness: `abc` as price aborts with an uncaught error; price `5`
with name `shirt` creates the item with price 5; an absent price field
with name `shirt` creates the item with price 0; an empty name with a
parseable price is rejected with a validation flash. -/
theorem admin_create_item_amended_witness :
    admin_create_item "shirt" (some "abc") "img" exDB = .error .pyError
    ∧ admin_create_item "shirt" (some "5") "img" exDB
        = .ok { exDB with
                items := exDB.items ++ [⟨exDB.nextItemId, pyStrip "shirt", 5, pyStrip "img"⟩],
                nextItemId := exDB.nextItemId + 1 }
    ∧ (∃ db1, admin_create_item "shirt" none "img" exDB = .ok db1
        ∧ db1.items = exDB.items
            ++ [⟨exDB.nextItemId, pyStrip "shirt", 0, pyStrip "img"⟩])
    ∧ admin_create_item "" (some "5") "img" exDB = .error .validation :=
  ⟨(admin_create_item_amended "shirt" (some "abc") "img" exDB).1 (by decide)
     (by decide),
   ((admin_create_item_amended "shirt" (some "5") "img" exDB).2.1 5
     (by simp +decide [pyFloat, splitOnChar, digitsVal])).2 (by decide),
   (admin_create_item_amended "shirt" none "img" exDB).2.2 (Or.inl rfl) (by decide),
   ((admin_create_item_amended "" (some "5") "img" exDB).2.1 5
     (by simp +decide [pyFloat, splitOnChar, digitsVal])).1 (by decide)⟩

/-- Splitting never produces the empty list of chunks. -/
lemma splitOnChar_ne_nil (c : Char) (l : List Char) : splitOnChar c l ≠ [] := by
  cases l with
  | nil => simp [splitOnChar]
  | cons x xs =>
    simp only [splitOnChar]
    split
    · simp
    · split <;> simp

/-- A list free of the separator is one single chunk. -/
lemma splitOnChar_no_sep (c : Char) (l : List Char)
    (h : ∀ x ∈ l, (x == c) = false) : splitOnChar c l = [l] := by
  induction l with
  | nil => rfl
  | cons x xs ih =>
    have hx : (x == c) = false := h x (by simp)
    simp only [splitOnChar, hx]
    rw [ih (fun y hy => h y (by simp [hy]))]
    simp

/-- The number of chunks is the separator count plus one. -/
lemma splitOnChar_length (c : Char) (l : List Char) :
    (splitOnChar c l).length = l.count c + 1 := by
  induction l with
  | nil => rfl
  | cons x xs ih =>
    simp only [splitOnChar]
    by_cases hx : (x == c) = true
    · rw [if_pos hx]
      simp [List.count_cons, hx, ih]
    · rw [if_neg hx]
      cases hr : splitOnChar c xs with
      | nil => exact absurd hr (splitOnChar_ne_nil c xs)
      | cons y ys =>
        rw [hr] at ih
        simp only [List.length_cons] at ih
        simp [List.count_cons, hx, ih]

/-- The last chunk of a split is the text after the last separator. -/
lemma splitOnChar_getLast_sep (c : Char) (l1 l2 : List Char)
    (h : ∀ x ∈ l2, (x == c) = false) :
    (splitOnChar c (l1 ++ c :: l2)).getLast? = some l2 := by
  induction l1 with
  | nil =>
    simp only [List.nil_append, splitOnChar]
    rw [if_pos (by simp)]
    rw [splitOnChar_no_sep c l2 h]
    rfl
  | cons x xs ih =>
    simp only [List.cons_append, splitOnChar]
    by_cases hx : (x == c) = true
    · rw [if_pos hx]
      cases hr : splitOnChar c (xs ++ c :: l2) with
      | nil => exact absurd hr (splitOnChar_ne_nil c _)
      | cons y ys =>
        rw [hr] at ih
        rw [List.getLast?_cons_cons]
        exact ih
    · rw [if_neg hx]
      cases hr : splitOnChar c (xs ++ c :: l2) with
      | nil => exact absurd hr (splitOnChar_ne_nil c _)
      | cons y ys =>
        cases ys with
        | nil =>
          have hlen := splitOnChar_length c (xs ++ c :: l2)
          rw [hr] at hlen
          simp [List.count_append, List.count_cons] at hlen
        | cons y2 ys2 =>
          rw [hr] at ih
          rw [List.getLast?_cons_cons] at ih
          rw [List.getLast?_cons_cons]
          exact ih

/-- The extension the handler extracts from `stem ++ "." ++ ext` is the
lowercased `ext`, provided the lowered extension itself has no dot. -/
lemma lastExt_append (stem ext : String)
    (h : ∀ ch ∈ (pyLower ext).data, (ch == '.') = false) :
    lastExt (stem ++ "." ++ ext) = pyLower ext := by
  unfold lastExt
  have hdata : (pyLower (stem ++ "." ++ ext)).data
      = (pyLower stem).data ++ '.' :: (pyLower ext).data := by
    simp [pyLower]
  rw [hdata, List.getLastD_eq_getLast?, splitOnChar_getLast_sep _ _ _ h]
  rfl

/-- C8 counterexample: `scan.pdf` has the unrecognized extension `pdf`,
and the handler attaches MIME type `image/pdf`, not the `image/png`
default the claim asserts for unrecognized extensions. -/
theorem mimeOf_unrecognized_cex :
    mimeOf "scan.pdf" = "image/pdf" ∧ mimeOf "scan.pdf" ≠ "image/png" := by
  constructor
  · rfl
  · intro h
    rw [show mimeOf "scan.pdf" = "image/pdf" from rfl] at h
    exact absurd h (by decide)

/-- C8 amended: the attached MIME type is `image/jpeg` when the
lowercased last extension is `jpg` or `jpeg`; it is `image/png` only when
the filename contains no dot at all; any other filename gets `image/`
followed by the lowercased text after its last dot (e.g. `image/pdf`). -/
theorem mimeOf_spec (stem ext : String)
    (hnd : ∀ ch ∈ (pyLower ext).data, (ch == '.') = false) :
    (∀ f : String, f.data.any (fun c => c == '.') = false → mimeOf f = "image/png")
    ∧ ((pyLower ext = "jpg" ∨ pyLower ext = "jpeg") →
        mimeOf (stem ++ "." ++ ext) = "image/jpeg")
    ∧ (pyLower ext ≠ "jpg" → pyLower ext ≠ "jpeg" →
        mimeOf (stem ++ "." ++ ext) = "image/" ++ pyLower ext) := by
  have hdot : ((stem ++ "." ++ ext).data.any (fun c => c == '.')) = true := by
    simp
  refine ⟨?_, ?_, ?_⟩
  · intro f hf
    simp [mimeOf, hf]
  · intro hjj
    simp only [mimeOf, hdot, if_true, lastExt_append stem ext hnd]
    rcases hjj with h | h <;> simp [h]
  · intro h1 h2
    simp only [mimeOf, hdot, if_true, lastExt_append stem ext hnd]
    simp [h1, h2]

/-- C8 witness: `noext` gets the `image/png` default, `photo.JPG` gets
`image/jpeg`, and `scan.pdf` gets `image/pdf`. -/
theorem mimeOf_spec_witness :
    mimeOf "noext" = "image/png"
    ∧ mimeOf ("photo" ++ "." ++ "JPG") = "image/jpeg"
    ∧ mimeOf ("scan" ++ "." ++ "pdf") = "image/" ++ pyLower "pdf" :=
  ⟨(mimeOf_spec "x" "y" (by decide)).1 "noext" (by decide),
   (mimeOf_spec "photo" "JPG" (by decide)).2.1 (Or.inl (by decide)),
   (mimeOf_spec "scan" "pdf" (by decide)).2.2 (by decide) (by decide)⟩
